import Mathlib

/-!
Verification of `shim_executable` (generator `shim_executable.cpp`, runtime
`shim.cpp`, shared codec `include/resource_functions.h`) against its
natural-language specification.  The C++ sources are shallowly embedded:
Win32 / filesystem effects become explicit environment records, wide strings
become `String` (or, for the byte-level resource codec, lists of UTF-16 code
units as `Nat`), and each `main` becomes a pure function from an environment
to an outcome record.
-/

namespace ShimExec

/- ----------------------------------------------------------------------- -/
/- Resource codec (include/resource_functions.h)                           -/
/- ----------------------------------------------------------------------- -/

/-- A wide string as the list of its UTF-16 code units (each `< 2^16`).
`AddResourceData` stores `arg.c_str()` with byte count
`arg.size() * sizeof(wchar_t)`; we model the stored blob as the explicit
little-endian byte list. -/
def encodeUtf16 (s : List Nat) : List Nat :=
  s.flatMap fun c => [c % 256, c / 256 % 256]

/-- Inverse of the byte view used by `GetResourceData`: the constructor
`wstring((LPCWSTR)data_ptr, data_size / sizeof(WCHAR))` reads exactly
`data_size / 2` code units from the blob, never scanning for a terminator. -/
def decodeUtf16 : List Nat → List Nat
  | lo :: hi :: rest => (lo + 256 * hi) :: decodeUtf16 rest
  | _ => []

/-- The resource table of a PE file, restricted to the `RT_RCDATA` entries the
shim system uses: named byte blobs. -/
def ResTable : Type := List (String × List Nat)

/-- `AddResourceData(target, name, arg)` (resource_functions.h:81-99):
`UpdateResource` replaces the blob stored under `name` with the UTF-16 bytes
of `arg`, whose recorded size is `arg.size() * sizeof(wchar_t)`. -/
def addResourceData (t : ResTable) (name : String) (s : List Nat) : ResTable :=
  (name, encodeUtf16 s) :: t.filter fun e => e.1 ≠ name

/-- `GetResourceData(name, arg)` (resource_functions.h:39-52): `none` when
`FindResource` fails (slot never written), otherwise the decoded code units
of the stored blob, using the recorded byte length. -/
def getResourceData (t : ResTable) (name : String) : Option (List Nat) :=
  (t.lookup name).map decodeUtf16

theorem decode_encode (s : List Nat) (h : ∀ c ∈ s, c < 65536) :
    decodeUtf16 (encodeUtf16 s) = s := by
  induction s with
  | nil => rfl
  | cons c rest ih =>
    have hc : c < 65536 := h c (List.mem_cons_self c rest)
    have hrest : ∀ x ∈ rest, x < 65536 := fun x hx => h x (List.mem_cons_of_mem c hx)
    have key : decodeUtf16 (encodeUtf16 (c :: rest)) =
        (c % 256 + 256 * (c / 256 % 256)) :: decodeUtf16 (encodeUtf16 rest) := rfl
    rw [key, ih hrest]
    congr 1
    omega

theorem encode_length (s : List Nat) : (encodeUtf16 s).length = 2 * s.length := by
  induction s with
  | nil => rfl
  | cons c rest ih =>
    have key : encodeUtf16 (c :: rest) = c % 256 :: c / 256 % 256 :: encodeUtf16 rest := rfl
    rw [key]
    simp [ih]
    omega

theorem lookup_add (t : ResTable) (name : String) (s : List Nat) :
    (addResourceData t name s).lookup name = some (encodeUtf16 s) := by
  simp [addResourceData, List.lookup]

/-- Claim C2: writing a wide string to a resource slot with `AddResourceData`
and reading it back with `GetResourceData` yields the same code-unit sequence
exactly — the blob's recorded byte length is `2 * |s|` on write and the reader
consumes `data_size / 2` code units, never scanning for a terminator (interior
zero units survive) — and the reader distinguishes a written-empty slot
(`some []`) from a never-written slot (`none`). -/
theorem addResourceData_getResourceData_roundtrip
    (t : ResTable) (name : String) (s : List Nat) (h : ∀ c ∈ s, c < 65536) :
    getResourceData (addResourceData t name s) name = some s
    ∧ (encodeUtf16 s).length = 2 * s.length
    ∧ (∀ (t2 : ResTable) (n2 : String),
        t2.lookup n2 = none → getResourceData t2 n2 = none)
    ∧ getResourceData (addResourceData t name []) name = some [] := by
  refine ⟨?_, encode_length s, ?_, ?_⟩
  · rw [getResourceData, lookup_add]
    show some (decodeUtf16 (encodeUtf16 s)) = some s
    rw [decode_encode s h]
  · intro t2 n2 h2
    rw [getResourceData, h2]
    rfl
  · rw [getResourceData, lookup_add]
    rfl

/-- Witness for C2 at a concrete input: the slot value `[72, 0, 105]` has an
interior zero code unit and still round-trips, on a table where the slot
`"WD_PATH"` is absent and decodes to `none`. -/
theorem addResourceData_getResourceData_roundtrip_witness :
    getResourceData (addResourceData [] ("SHIM_ARGS") [72, 0, 105]) ("SHIM_ARGS")
        = some [72, 0, 105]
    ∧ getResourceData (addResourceData [] ("SHIM_ARGS") [72, 0, 105]) ("WD_PATH")
        = none := by
  constructor
  · exact (addResourceData_getResourceData_roundtrip [] ("SHIM_ARGS") [72, 0, 105]
      (by decide)).1
  · decide

/- ----------------------------------------------------------------------- -/
/- Shim runtime (shim.cpp)                                                 -/
/- ----------------------------------------------------------------------- -/

def isLowerAZ (c : Char) : Bool := decide ('a' ≤ c) && decide (c ≤ 'z')

/-- The literal head `--shim` of every shim flag (`SHIM_ARG_PREFIX`,
shim.cpp:15), matched case-insensitively on a lowercased argument. -/
def dropShimHead : List Char → Option (List Char)
  | '-' :: '-' :: 's' :: 'h' :: 'i' :: 'm' :: rest => some rest
  | _ => none

/-- Modelled from the spec: `GetArgument(args, pattern)` lives in
`get_argument.h`, which is not under `src/`; per the spec (§4.2) shim flags
are matched case-insensitively by a fuzzy pattern — prefix, a single
discriminating letter, arbitrary trailing letters.  `GetShimArg`
(shim.cpp:17-23) builds exactly the pattern `--shim[a-z]*-X[a-z]*`; this
decides whether one argument matches that pattern for discriminator `x`.
Since `-` is not in `[a-z]`, the letter run before `-` is forced to be
maximal, so the match is deterministic. -/
def matchShimArg (x : Char) (arg : String) : Bool :=
  match dropShimHead (arg.data.map Char.toLower) with
  | some rest =>
    match rest.dropWhile isLowerAZ with
    | '-' :: c :: b => c == x && b.all isLowerAZ
    | _ => false
  | none => false

/-- The five flag patterns `ShimMain` consumes (shim.cpp:218-222): log, wait,
exit, gui, noop. -/
def recognizedShimFlag (arg : String) : Bool :=
  matchShimArg 'l' arg || matchShimArg 'w' arg || matchShimArg 'e' arg ||
  matchShimArg 'g' arg || matchShimArg 'n' arg

/-- Whether an argument matches `--shim.*` (shim.cpp:230): any argument whose
lowercased text starts with `--shim`. -/
def shimHead (arg : String) : Bool :=
  (dropShimHead (arg.data.map Char.toLower)).isSome

/-- Modelled from the spec: `CollapseArguments` (utility_functions.h, not
under `src/`) concatenates the leftover arguments space-joined, original
relative order preserved (§4.2). -/
def sjoin : List String → String
  | [] => ""
  | [a] => a
  | a :: b :: rest => a ++ " " ++ sjoin (b :: rest)

def isPathSep (c : Char) : Bool := c == '\\' || c == '/'

/-- `filesystem::path(p).parent_path()` on the string level: the portion of
`p` before its last path separator (empty when there is none). -/
def parentDir (p : String) : String :=
  String.mk (((p.data.reverse.dropWhile fun c => !isPathSep c).drop 1).reverse)

/-- `UpperCase` (utility_functions.h, not under `src/`): uppercases a string
in place; modelled from the spec's case-insensitivity of flag values. -/
def upperStr (s : String) : String := String.mk (s.data.map Char.toUpper)

/-- Environment of one shim invocation (`ShimMain`, shim.cpp:204).  `args`
are the command-line tokens after `argv[0]` as produced by `ParseArguments`
(utility_functions.h, not under `src/`); `wdTypeOverride` / `wdPathOverride`
are the values the value-form `GetArgument` extracts for `--shim-wdtype` /
`--shim-wdpath` (get_argument.h, not under `src/`; modelled from the spec as
pre-extracted values, empty when not passed).  `resources` is the decoded
view of the shim's own RT_RCDATA slots (`none` = never written),
`targetExists p` is `filesystem::exists(p)`, `selfEquivalent p` is
`filesystem::equivalent(thisExecPath, p)`, `createOk` is whether
`CreateProcessW` (or the elevation fallback) yields a process handle, and
`childExitCode` is what `GetExitCodeProcess` reports after a wait. -/
structure ShimEnv where
  args : List String
  wdTypeOverride : String
  wdPathOverride : String
  resources : String → Option String
  shimDir : String
  currDir : String
  targetExists : String → Bool
  selfEquivalent : String → Bool
  createOk : Bool
  childExitCode : Nat

/-- Observable outcome of one shim invocation: the process exit code, whether
the help text was shown, whether a child process was created, whether the
shim waited for it, and the command line / working directory handed to
`MakeProcess`. -/
structure ShimResult where
  exitCode : Nat
  helpShown : Bool
  spawned : Bool
  waited : Bool
  cmdLine : String
  workingDir : String
deriving DecidableEq, Repr

/-- Outcome of the paths that never reach process creation. -/
def noRun (code : Nat) : ShimResult :=
  { exitCode := code, helpShown := false, spawned := false, waited := false,
    cmdLine := "", workingDir := "" }

/-- Working-directory selection (shim.cpp:362-376). -/
def resolveWorkingDir (wdType wdPath currDir appDir shimDir : String) : String :=
  if wdType ≠ "" then
    if wdType = "CMD" then currDir
    else if wdType = "APP" then appDir
    else if wdType = "SHIM" then shimDir
    else if wdType = "PATH" then (if wdPath = "" then shimDir else wdPath)
    else shimDir
  else shimDir

/-- The arguments left for the target after the five shim flag patterns are
consumed (shim.cpp:232-233). -/
def forwardedArgs (env : ShimEnv) : List String :=
  env.args.filter fun a => !recognizedShimFlag a

/-- Effective working-directory type: CLI override (uppercased,
shim.cpp:315-318) over the embedded `WD_TYPE` slot, defaulting to empty. -/
def resolvedWdType (env : ShimEnv) : String :=
  if env.wdTypeOverride ≠ "" then upperStr env.wdTypeOverride
  else (env.resources ("WD_TYPE")).getD ""

/-- Effective working-directory path: CLI override (shim.cpp:319-320) over
the embedded `WD_PATH` slot. -/
def resolvedWdPath (env : ShimEnv) : String :=
  if env.wdPathOverride ≠ "" then env.wdPathOverride
  else (env.resources ("WD_PATH")).getD ""

/-- `ShimMain` (shim.cpp:204-434) as a pure function of its environment.
Control flow follows the source: flag extraction; help on any unconsumed
`--shim.*` argument (`ShowHelp` terminates with `exit(0)`, shim.cpp:199);
`shimArgExit ||= isWindowsApp` and the wait/exit conflict error
(shim.cpp:274-279); the three `SHIM_PATH` validity checks (shim.cpp:288-304);
slot reads with defaults; CONSOLE default-wait override (shim.cpp:322-324);
argument combination (shim.cpp:357-360); working-directory resolution; NoOp
short-circuit (shim.cpp:389-393); `MakeProcess` with the command line
`path + " " + args` (shim.cpp:64-67); and exit-code selection
(shim.cpp:398-426). -/
def shimMain (env : ShimEnv) : ShimResult :=
  let shimArgWait := env.args.any (matchShimArg 'w')
  let shimArgExit := env.args.any (matchShimArg 'e')
  let isWindowsApp := env.args.any (matchShimArg 'g')
  let shimArgNoop := env.args.any (matchShimArg 'n')
  let leftover := forwardedArgs env
  if leftover.any shimHead then { noRun 0 with helpShown := true }
  else
    let callingArgs := sjoin leftover
    let effExit := shimArgExit || isWindowsApp
    if effExit && shimArgWait then noRun 1
    else
      match env.resources ("SHIM_PATH") with
      | none => noRun 1
      | some appPath =>
        if !env.targetExists appPath then noRun 1
        else if env.selfEquivalent appPath then noRun 1
        else
          let appDir := parentDir appPath
          let appArgs0 := (env.resources ("SHIM_ARGS")).getD ""
          let shimType := (env.resources ("SHIM_TYPE")).getD ""
          let effWait := if shimType = "CONSOLE" then !effExit else shimArgWait
          let appArgs :=
            if callingArgs ≠ "" && appArgs0 ≠ "" then appArgs0 ++ " " ++ callingArgs
            else appArgs0 ++ callingArgs
          let workingDir :=
            resolveWorkingDir (resolvedWdType env) (resolvedWdPath env)
              env.currDir appDir env.shimDir
          if shimArgNoop then { noRun 0 with workingDir := workingDir }
          else
            let cmd := if appArgs = "" then appPath else appPath ++ " " ++ appArgs
            if env.createOk then
              { exitCode := if effWait then env.childExitCode else 0,
                helpShown := false, spawned := true, waited := effWait,
                cmdLine := cmd, workingDir := workingDir }
            else { noRun 1 with cmdLine := cmd, workingDir := workingDir }

theorem sjoin_cons (a b : String) (l : List String) :
    sjoin (a :: b :: l) = a ++ " " ++ sjoin (b :: l) := rfl

theorem append_ne_empty_left (a b : String) (h : a ≠ "") : a ++ b ≠ "" := by
  intro hc
  apply h
  rw [String.ext_iff] at hc ⊢
  rw [String.data_append] at hc
  rcases List.append_eq_nil.mp hc with ⟨h1, _⟩
  exact h1

theorem sjoin_cons_ne (a : String) (l : List String) (h : a ≠ "") :
    sjoin (a :: l) ≠ "" := by
  cases l with
  | nil => simpa [sjoin] using h
  | cons b r =>
    rw [sjoin_cons]
    exact append_ne_empty_left _ _ (append_ne_empty_left _ _ h)

theorem cmdline_eq_filtered_join (p a0 : String) (fwd : List String)
    (hp : p ≠ "") (hf : ∀ x ∈ fwd, x ≠ "") :
    (let calling := sjoin fwd
     let a := if calling ≠ "" && a0 ≠ "" then a0 ++ " " ++ calling
              else a0 ++ calling
     if a = "" then p else p ++ " " ++ a)
    = sjoin (([p, a0] ++ fwd).filter fun s => s ≠ "") := by
  by_cases ha : a0 = ""
  · subst ha
    cases fwd with
    | nil => simp [sjoin, hp]
    | cons x r =>
      have hx : x ≠ "" := hf x (List.mem_cons_self x r)
      have hj : sjoin (x :: r) ≠ "" := sjoin_cons_ne x r hx
      have hr : List.filter (fun s => !decide (s = "")) r = r :=
        List.filter_eq_self.mpr (fun y hy => by simp [hf y (List.mem_cons_of_mem x hy)])
      simp only [List.cons_append, List.nil_append, List.filter_cons]
      simp [hp, hx, hj, hr, sjoin]
  · cases fwd with
    | nil =>
      simp only [List.cons_append, List.nil_append, List.filter_cons]
      simp [hp, ha, sjoin]
    | cons x r =>
      have hx : x ≠ "" := hf x (List.mem_cons_self x r)
      have hj : sjoin (x :: r) ≠ "" := sjoin_cons_ne x r hx
      have hr : List.filter (fun s => !decide (s = "")) r = r :=
        List.filter_eq_self.mpr (fun y hy => by simp [hf y (List.mem_cons_of_mem x hy)])
      have hcomb : a0 ++ (" " ++ sjoin (x :: r)) ≠ "" := append_ne_empty_left _ _ ha
      simp only [List.cons_append, List.nil_append, List.filter_cons]
      simp [hp, ha, hx, hj, hr, hcomb, sjoin_cons, String.append_assoc]

/-- `shimArgWait` (shim.cpp:219): some argument matches the wait pattern. -/
def waitFlag (env : ShimEnv) : Bool := env.args.any (matchShimArg 'w')

/-- `shimArgExit` before line 274 (shim.cpp:220). -/
def exitFlag (env : ShimEnv) : Bool := env.args.any (matchShimArg 'e')

/-- `isWindowsApp` (shim.cpp:221): the GUI alias. -/
def guiFlag (env : ShimEnv) : Bool := env.args.any (matchShimArg 'g')

/-- `shimArgNoop` (shim.cpp:222). -/
def noopFlag (env : ShimEnv) : Bool := env.args.any (matchShimArg 'n')

/-- Whether an unconsumed `--shim.*` argument remains, sending the shim to
`ShowHelp` and `exit(0)` (shim.cpp:230). -/
def helpTriggered (env : ShimEnv) : Bool := (forwardedArgs env).any shimHead

/-- The embedded `SHIM_TYPE` slot, empty when absent (shim.cpp:308). -/
def embeddedShimType (env : ShimEnv) : String :=
  (env.resources ("SHIM_TYPE")).getD ""

/-- `shimArgExit` after `shimArgExit = shimArgExit || isWindowsApp`
(shim.cpp:274). -/
def effExitOf (env : ShimEnv) : Bool := exitFlag env || guiFlag env

/-- The effective wait mode: for a CONSOLE shim, wait unless exit was
requested (shim.cpp:322-324); otherwise the wait flag as passed. -/
def effWaitOf (env : ShimEnv) : Bool :=
  if embeddedShimType env = "CONSOLE" then !effExitOf env else waitFlag env

/-- The combined argument string of shim.cpp:357-360: embedded `SHIM_ARGS`
first, a separating space only when both parts are non-empty, then the
forwarded caller arguments. -/
def combinedArgsOf (env : ShimEnv) : String :=
  let calling := sjoin (forwardedArgs env)
  let a0 := (env.resources ("SHIM_ARGS")).getD ""
  if calling ≠ "" && a0 ≠ "" then a0 ++ " " ++ calling else a0 ++ calling

/-- The command line `MakeProcess` builds (shim.cpp:64-67). -/
def cmdLineOf (env : ShimEnv) (p : String) : String :=
  if combinedArgsOf env = "" then p else p ++ " " ++ combinedArgsOf env

/-- The working directory handed to `CreateProcessW`. -/
def workingDirOf (env : ShimEnv) (p : String) : String :=
  resolveWorkingDir (resolvedWdType env) (resolvedWdPath env) env.currDir
    (parentDir p) env.shimDir

/-- On the launch path — no help trigger, no wait/exit conflict, a valid
embedded target, no NoOp, process creation succeeding — `shimMain` spawns
and its observables are the resolved wait mode, command line and working
directory. -/
theorem shimMain_launch (env : ShimEnv) (p : String)
    (hhelp : helpTriggered env = false)
    (hconf : (effExitOf env && waitFlag env) = false)
    (hres : env.resources ("SHIM_PATH") = some p)
    (hex : env.targetExists p = true)
    (hself : env.selfEquivalent p = false)
    (hnoop : noopFlag env = false)
    (hcreate : env.createOk = true) :
    shimMain env =
      { exitCode := if effWaitOf env then env.childExitCode else 0,
        helpShown := false, spawned := true, waited := effWaitOf env,
        cmdLine := cmdLineOf env p, workingDir := workingDirOf env p } := by
  simp only [helpTriggered] at hhelp
  simp only [effExitOf, exitFlag, guiFlag, waitFlag] at hconf
  simp only [noopFlag] at hnoop
  simp [shimMain, hhelp, hconf, hres, hex, hself, hnoop, hcreate,
    effWaitOf, effExitOf, exitFlag, guiFlag, waitFlag, embeddedShimType,
    cmdLineOf, combinedArgsOf, workingDirOf]

/-- A concrete shim environment: a CONSOLE shim for `C:\APP\app.exe`, no
flags, process creation succeeding, child exit code 7. -/
def shimRes1 (n : String) : Option String :=
  if n = "SHIM_PATH" then some ("C:\\APP\\app.exe")
  else if n = "SHIM_TYPE" then some ("CONSOLE") else none

def shimEnv1 : ShimEnv :=
  { args := [], wdTypeOverride := "", wdPathOverride := "",
    resources := shimRes1, shimDir := "C:\\SHIMS", currDir := "C:\\CUR",
    targetExists := fun p => p == "C:\\APP\\app.exe",
    selfEquivalent := fun _ => false, createOk := true, childExitCode := 7 }

/-- Claim C3: on a launch, the effective wait mode is — wait when the
embedded `SHIM_TYPE` is `CONSOLE` and no exit-flag (or GUI-alias) variant was
passed; no wait whenever an exit-flag or GUI-alias variant was passed,
regardless of subsystem; and for a non-CONSOLE shim, wait exactly when a
wait-flag variant was passed. -/
theorem shimMain_wait_mode (env : ShimEnv) (p : String)
    (hhelp : helpTriggered env = false)
    (hconf : (effExitOf env && waitFlag env) = false)
    (hres : env.resources ("SHIM_PATH") = some p)
    (hex : env.targetExists p = true)
    (hself : env.selfEquivalent p = false)
    (hnoop : noopFlag env = false)
    (hcreate : env.createOk = true) :
    (embeddedShimType env = "CONSOLE" → effExitOf env = false →
        (shimMain env).waited = true)
    ∧ (effExitOf env = true → (shimMain env).waited = false)
    ∧ (embeddedShimType env ≠ "CONSOLE" →
        (shimMain env).waited = waitFlag env) := by
  rw [shimMain_launch env p hhelp hconf hres hex hself hnoop hcreate]
  refine ⟨?_, ?_, ?_⟩
  · intro ht he
    simp [effWaitOf, ht, he]
  · intro he
    by_cases ht : embeddedShimType env = "CONSOLE"
    · simp [effWaitOf, ht, he]
    · have hw : waitFlag env = false := by
        cases hw : waitFlag env
        · rfl
        · rw [he, hw] at hconf
          simp at hconf
      simp [effWaitOf, ht, hw]
  · intro ht
    simp [effWaitOf, ht]

/-- Witness for C3 at `shimEnv1`: a CONSOLE shim with no flags waits. -/
theorem shimMain_wait_mode_witness :
    embeddedShimType shimEnv1 = "CONSOLE" ∧ effExitOf shimEnv1 = false ∧
    (shimMain shimEnv1).waited = true := by
  refine ⟨by decide, by decide, ?_⟩
  exact (shimMain_wait_mode shimEnv1 ("C:\\APP\\app.exe") (by decide) (by decide)
    (by decide) (by decide) (by decide) (by decide) (by decide)).1
    (by decide) (by decide)

/-- A shim invocation passing a wait variant, an exit variant, and also a
shim-prefixed argument the runtime does not recognize. -/
def shimEnvC4 : ShimEnv :=
  { shimEnv1 with args := ["--shim-wait", "--shimgen-exit", "--shim-help"] }

/-- Counterexample to claim C4 as stated: this invocation's arguments contain
a wait-flag variant and an exit-flag variant, yet the unrecognized
`--shim-help` argument sends the runtime to `ShowHelp` (shim.cpp:230), which
terminates with `exit(0)` (shim.cpp:199) — so the shim exits 0, not 1. -/
theorem shimMain_conflict_counterexample :
    waitFlag shimEnvC4 = true ∧ exitFlag shimEnvC4 = true ∧
    (shimMain shimEnvC4).exitCode = 0 ∧ (shimMain shimEnvC4).helpShown = true := by
  decide

/-- Claim C4 amended: an invocation whose arguments contain both a wait-flag
variant and an exit-flag (or GUI-alias) variant, and in which no leftover
shim-prefixed argument triggers the help path, returns exit code 1 and
creates no process. -/
theorem shimMain_conflict_exits_one (env : ShimEnv)
    (hhelp : helpTriggered env = false)
    (hw : waitFlag env = true)
    (he : effExitOf env = true) :
    (shimMain env).exitCode = 1 ∧ (shimMain env).spawned = false := by
  simp only [helpTriggered] at hhelp
  simp only [waitFlag] at hw
  simp only [effExitOf, exitFlag, guiFlag] at he
  simp [shimMain, hhelp, hw, he, noRun]

/-- A shim invocation passing only the conflicting wait and exit variants. -/
def shimEnvC4b : ShimEnv :=
  { shimEnv1 with args := ["--shim-wait", "--shimgen-exit"] }

/-- Witness for the amended C4 at a concrete invocation. -/
theorem shimMain_conflict_exits_one_witness :
    (shimMain shimEnvC4b).exitCode = 1 ∧ (shimMain shimEnvC4b).spawned = false :=
  shimMain_conflict_exits_one shimEnvC4b (by decide) (by decide) (by decide)

/-- A shim whose `SHIM_PATH` slot was never written, invoked with the
(unconsumed, shim-prefixed) `--shim-help` argument. -/
def shimEnvC5 : ShimEnv :=
  { shimEnv1 with args := ["--shim-help"], resources := fun _ => none }

/-- Counterexample to claim C5 as stated: this invocation has an absent
`SHIM_PATH` slot, yet it exits 0, because the unconsumed `--shim-help`
argument reaches `ShowHelp` and `exit(0)` (shim.cpp:230, shim.cpp:199)
before the resource slots are ever read. -/
theorem shimMain_invalid_target_counterexample :
    shimEnvC5.resources ("SHIM_PATH") = none ∧
    (shimMain shimEnvC5).exitCode = 0 ∧ (shimMain shimEnvC5).spawned = false ∧
    (shimMain shimEnvC5).helpShown = true := by
  decide

/-- Claim C5 amended: provided no argument triggers the help path, a shim
invocation with an absent `SHIM_PATH` slot, a non-existent embedded target,
or a self-referential target returns exit code 1 and spawns nothing; absence
of every other slot (`SHIM_ARGS`, `SHIM_TYPE`, `WD_TYPE`, `WD_PATH`) is not
an error — the shim still reaches process creation, with the default wait
mode of a non-CONSOLE shim and the shim's own directory as working
directory. -/
theorem shimMain_invalid_target_exits_one (env : ShimEnv)
    (hhelp : helpTriggered env = false) :
    (env.resources ("SHIM_PATH") = none →
        (shimMain env).exitCode = 1 ∧ (shimMain env).spawned = false)
    ∧ (∀ p, env.resources ("SHIM_PATH") = some p → env.targetExists p = false →
        (shimMain env).exitCode = 1 ∧ (shimMain env).spawned = false)
    ∧ (∀ p, env.resources ("SHIM_PATH") = some p → env.targetExists p = true →
        env.selfEquivalent p = true →
        (shimMain env).exitCode = 1 ∧ (shimMain env).spawned = false)
    ∧ (∀ p, env.resources ("SHIM_PATH") = some p → env.targetExists p = true →
        env.selfEquivalent p = false →
        (effExitOf env && waitFlag env) = false → noopFlag env = false →
        env.resources ("SHIM_ARGS") = none → env.resources ("SHIM_TYPE") = none →
        env.resources ("WD_TYPE") = none → env.resources ("WD_PATH") = none →
        env.wdTypeOverride = "" → env.wdPathOverride = "" →
        (shimMain env).spawned = env.createOk
        ∧ (env.createOk = true → (shimMain env).workingDir = env.shimDir
            ∧ (shimMain env).waited = waitFlag env)) := by
  simp only [helpTriggered] at hhelp
  refine ⟨?_, ?_, ?_, ?_⟩
  · intro hres
    by_cases hc : ((env.args.any (matchShimArg 'e') || env.args.any (matchShimArg 'g'))
        && env.args.any (matchShimArg 'w')) = true
    · simp [shimMain, hhelp, hc, noRun]
    · simp only [Bool.not_eq_true] at hc
      simp [shimMain, hhelp, hc, hres, noRun]
  · intro p hres hex
    by_cases hc : ((env.args.any (matchShimArg 'e') || env.args.any (matchShimArg 'g'))
        && env.args.any (matchShimArg 'w')) = true
    · simp [shimMain, hhelp, hc, noRun]
    · simp only [Bool.not_eq_true] at hc
      simp [shimMain, hhelp, hc, hres, hex, noRun]
  · intro p hres hex hself
    by_cases hc : ((env.args.any (matchShimArg 'e') || env.args.any (matchShimArg 'g'))
        && env.args.any (matchShimArg 'w')) = true
    · simp [shimMain, hhelp, hc, noRun]
    · simp only [Bool.not_eq_true] at hc
      simp [shimMain, hhelp, hc, hres, hex, hself, noRun]
  · intro p hres hex hself hconf hnoop hargs htype hwdt hwdp hwto hwpo
    simp only [effExitOf, exitFlag, guiFlag, waitFlag] at hconf
    simp only [noopFlag] at hnoop
    cases hcr : env.createOk with
    | false =>
      refine ⟨?_, fun h => absurd h (by decide)⟩
      simp [shimMain, hhelp, hconf, hres, hex, hself, hnoop, hcr, noRun]
    | true =>
      refine ⟨?_, fun _ => ⟨?_, ?_⟩⟩
      · simp [shimMain, hhelp, hconf, hres, hex, hself, hnoop, hcr, hargs, htype,
          hwdt, hwdp, resolvedWdType, resolvedWdPath, hwto, hwpo, resolveWorkingDir]
      · simp [shimMain, hhelp, hconf, hres, hex, hself, hnoop, hcr, hargs, htype,
          hwdt, hwdp, resolvedWdType, resolvedWdPath, hwto, hwpo, resolveWorkingDir]
      · simp [shimMain, hhelp, hconf, hres, hex, hself, hnoop, hcr, hargs, htype,
          hwdt, hwdp, waitFlag, resolvedWdType, resolvedWdPath, hwto, hwpo,
          resolveWorkingDir]

/-- A shim with only `SHIM_PATH` written, everything else absent. -/
def shimEnvC5b : ShimEnv :=
  { shimEnv1 with
    resources := fun n => if n = "SHIM_PATH" then some ("C:\\APP\\app.exe") else none }

/-- Witness for the amended C5: with every optional slot absent the shim
still spawns, uses the shim directory, and does not wait. -/
theorem shimMain_invalid_target_exits_one_witness :
    (shimMain shimEnvC5b).spawned = shimEnvC5b.createOk ∧
    (shimMain shimEnvC5b).workingDir = shimEnvC5b.shimDir := by
  have h := (shimMain_invalid_target_exits_one shimEnvC5b (by decide)).2.2.2
    ("C:\\APP\\app.exe") (by decide) (by decide) (by decide) (by decide) (by decide)
    (by decide) (by decide) (by decide) (by decide) (by decide) (by decide)
  exact ⟨h.1, (h.2 (by decide)).1⟩

/-- Claim C6: on a launch, the command line handed to process creation is
the target path, the embedded `SHIM_ARGS` string, and the forwarded caller
arguments, in that order, space-joined with empty components omitted; the
forwarded arguments are a sublist of the original argument list (original
relative order preserved). -/
theorem shimMain_command_line (env : ShimEnv) (p : String)
    (hhelp : helpTriggered env = false)
    (hconf : (effExitOf env && waitFlag env) = false)
    (hres : env.resources ("SHIM_PATH") = some p)
    (hex : env.targetExists p = true)
    (hself : env.selfEquivalent p = false)
    (hnoop : noopFlag env = false)
    (hcreate : env.createOk = true)
    (hp : p ≠ "")
    (hfwd : ∀ x ∈ forwardedArgs env, x ≠ "") :
    (shimMain env).cmdLine =
      sjoin ((p :: (env.resources ("SHIM_ARGS")).getD "" :: forwardedArgs env).filter
        fun s => s ≠ "")
    ∧ (forwardedArgs env).Sublist env.args := by
  constructor
  · rw [shimMain_launch env p hhelp hconf hres hex hself hnoop hcreate]
    have h := cmdline_eq_filtered_join p ((env.resources ("SHIM_ARGS")).getD "")
      (forwardedArgs env) hp hfwd
    simpa [cmdLineOf, combinedArgsOf] using h
  · exact List.filter_sublist env.args

/-- A shim embedding extra arguments `--flag1`, called with one caller
argument `extra`. -/
def shimEnvC6 : ShimEnv :=
  { shimEnv1 with
    args := ["extra"]
    resources := fun n =>
      if n = "SHIM_PATH" then some ("C:\\APP\\app.exe")
      else if n = "SHIM_ARGS" then some ("--flag1") else none }

/-- Witness for C6: the end-to-end command line is target, embedded args,
then forwarded args, single-space-joined. -/
theorem shimMain_command_line_witness :
    (shimMain shimEnvC6).cmdLine = "C:\\APP\\app.exe --flag1 extra" := by
  have h := (shimMain_command_line shimEnvC6 ("C:\\APP\\app.exe") (by decide)
    (by decide) (by decide) (by decide) (by decide) (by decide) (by decide)
    (by decide) (by decide)).1
  rw [h]
  decide

/-- Claim C10: on a launch, the working directory is the current directory
for resolved type `CMD`, the target's directory for `APP`, the shim's
directory for `SHIM`, the resolved path for `PATH` with a non-empty path,
and the shim's directory in every remaining case — type empty/absent, type
`PATH` with empty path, or any unrecognized type, none of which is rejected:
the shim still spawns. -/
theorem shimMain_working_directory (env : ShimEnv) (p : String)
    (hhelp : helpTriggered env = false)
    (hconf : (effExitOf env && waitFlag env) = false)
    (hres : env.resources ("SHIM_PATH") = some p)
    (hex : env.targetExists p = true)
    (hself : env.selfEquivalent p = false)
    (hnoop : noopFlag env = false)
    (hcreate : env.createOk = true) :
    (resolvedWdType env = "CMD" → (shimMain env).workingDir = env.currDir)
    ∧ (resolvedWdType env = "APP" → (shimMain env).workingDir = parentDir p)
    ∧ (resolvedWdType env = "SHIM" → (shimMain env).workingDir = env.shimDir)
    ∧ (resolvedWdType env = "PATH" → resolvedWdPath env ≠ "" →
        (shimMain env).workingDir = resolvedWdPath env)
    ∧ (resolvedWdType env = "PATH" → resolvedWdPath env = "" →
        (shimMain env).workingDir = env.shimDir)
    ∧ (resolvedWdType env ∉ (["CMD", "APP", "SHIM", "PATH"] : List String) →
        (shimMain env).workingDir = env.shimDir)
    ∧ (shimMain env).spawned = true := by
  rw [shimMain_launch env p hhelp hconf hres hex hself hnoop hcreate]
  refine ⟨?_, ?_, ?_, ?_, ?_, ?_, rfl⟩
  · intro h
    simp [workingDirOf, resolveWorkingDir, h]
  · intro h
    simp [workingDirOf, resolveWorkingDir, h]
  · intro h
    simp [workingDirOf, resolveWorkingDir, h]
  · intro h hp
    simp [workingDirOf, resolveWorkingDir, h, hp]
  · intro h hp
    simp [workingDirOf, resolveWorkingDir, h, hp]
  · intro h
    simp only [List.mem_cons, List.not_mem_nil, or_false, not_or] at h
    obtain ⟨h1, h2, h3, h4⟩ := h
    by_cases h0 : resolvedWdType env = ""
    · simp [workingDirOf, resolveWorkingDir, h0]
    · simp [workingDirOf, resolveWorkingDir, h0, h1, h2, h3, h4]

/-- A shim whose embedded `WD_TYPE` holds the unrecognized value `BOGUS`. -/
def shimEnvC10 : ShimEnv :=
  { shimEnv1 with
    resources := fun n =>
      if n = "SHIM_PATH" then some ("C:\\APP\\app.exe")
      else if n = "WD_TYPE" then some ("BOGUS") else none }

/-- Witness for C10: an unrecognized working-directory type falls back to
the shim's directory and is not rejected. -/
theorem shimMain_working_directory_witness :
    (shimMain shimEnvC10).workingDir = shimEnvC10.shimDir ∧
    (shimMain shimEnvC10).spawned = true := by
  have h := shimMain_working_directory shimEnvC10 ("C:\\APP\\app.exe") (by decide)
    (by decide) (by decide) (by decide) (by decide) (by decide) (by decide)
  exact ⟨h.2.2.2.2.2.1 (by decide), h.2.2.2.2.2.2⟩

/- ----------------------------------------------------------------------- -/
/- Generator (shim_executable.cpp)                                         -/
/- ----------------------------------------------------------------------- -/

/-- A filesystem path as `filesystem::path` uses it in the generator: an
absolute/relative flag plus the component list. -/
structure FsPath where
  absolute : Bool
  comps : List String
deriving DecidableEq, Repr

/-- `operator/` of `filesystem::path`: an absolute right-hand side replaces
the left-hand side, otherwise the components are appended. -/
def fsJoin (a b : FsPath) : FsPath :=
  if b.absolute then b else ⟨a.absolute, a.comps ++ b.comps⟩

/-- `parent_path()`: drop the last component. -/
def FsPath.parent (p : FsPath) : FsPath := ⟨p.absolute, p.comps.dropLast⟩

/-- `filename()`: the last component. -/
def FsPath.filename (p : FsPath) : String := p.comps.getLastD ""

/-- One step of lexical path normalization. -/
def normStep (acc : List String) (c : String) : List String :=
  if c = "." then acc else if c = ".." then acc.dropLast else acc ++ [c]

/-- `filesystem::weakly_canonical`, modelled as lexical normalization of the
`.` and `..` components. -/
def wcanon (p : FsPath) : FsPath := ⟨p.absolute, p.comps.foldl normStep []⟩

/-- Environment of one generator invocation (`wmain`,
shim_executable.cpp:235).  `execDir` is the generator binary's directory,
`isShimgen` is whether the binary is named `SHIMGEN` (line 249), `execType`
is the `SHGetFileInfoW(..., SHGFI_EXETYPE)` probe (0 = not executable, high
word non-zero = windows GUI), `unpackOk` is whether `UnpackShim` /
`GetResourceFile` succeeds, and `writeOk` is the per-slot result of
`AddResourceData`. -/
structure GenEnv where
  execDir : FsPath
  currDir : FsPath
  isShimgen : Bool
  fsExists : FsPath → Bool
  isRegular : FsPath → Bool
  isDir : FsPath → Bool
  execType : FsPath → Nat
  equivalent : FsPath → FsPath → Bool
  unpackOk : Bool
  writeOk : String → Bool

/-- Modelled from the spec: the generator's argument values as extracted by
`GetArgument` / `ReparseArguments` / `TrimQuotes` / `UnquoteString`
(get_argument.h and utility_functions.h, not under `src/`); per the spec
each flag family is matched case-insensitively with either `=` or separate
values, and in non-legacy mode the positional fallbacks fill `input` then
`output`.  We take the post-extraction values: `none` for `input`/`output`
mirrors an empty string. -/
structure GenArgs where
  help : Bool
  input : Option FsPath
  output : Option FsPath
  commandArgs : String
  icon : String
  guiFlag : Bool
  consoleFlag : Bool
  wdType : String
  wdPath : String
  debug : Bool

/-- Observable outcome of a generator invocation: exit code, whether help
was shown, whether the shim file was created, the resolved source path, the
resolved output path before and after the directory-name adjustment, the
effective subsystem and working-directory type, warnings, and the attempted
resource writes with their results. -/
structure GenOutcome where
  exitCode : Nat
  helpShown : Bool
  created : Bool
  inPath : Option FsPath
  outPathRes : Option FsPath
  outPath : Option FsPath
  shimType : String
  wdTypeRes : String
  warnings : List String
  writes : List (String × Bool)
deriving DecidableEq, Repr

/-- The outcome every validation failure returns: `exitcode` stays at its
initial value 1 (shim_executable.cpp:236). -/
def genFail : GenOutcome :=
  { exitCode := 1, helpShown := false, created := false, inPath := none,
    outPathRes := none, outPath := none, shimType := "", wdTypeRes := "",
    warnings := [], writes := [] }

/-- Path expansion (shim_executable.cpp:383-433).  Legacy (`SHIMGEN`) mode:
a relative output is expanded from the generator binary's directory, then a
relative input from the resolved output's directory; `none` when the output
is empty.  Non-legacy mode: a relative input is expanded from the current
directory, an empty output defaults to the current directory, and a relative
output is expanded from the current directory. -/
def genResolve (env : GenEnv) (args : GenArgs) : Option (FsPath × FsPath) :=
  match args.input with
  | none => none
  | some i =>
    if env.isShimgen then
      match args.output with
      | none => none
      | some o =>
        let outp := if !o.absolute then wcanon (fsJoin env.execDir o) else o
        let inp := if !i.absolute then wcanon (fsJoin outp.parent i) else i
        some (inp, outp)
    else
      let inp := if !i.absolute then wcanon (fsJoin env.currDir i) else i
      let o0 := match args.output with
                | none => env.currDir
                | some o => o
      let outp := if !o0.absolute then wcanon (fsJoin env.currDir o0) else o0
      some (inp, outp)

/-- The resource slots `wmain` writes, in order (shim_executable.cpp:567-574):
`SHIM_PATH`, `SHIM_TYPE`, `WD_TYPE` always; `WD_PATH` only for a `PATH`
working-directory type with a non-empty path; `SHIM_ARGS` only when extra
arguments were given. -/
def genWriteSlots (wdt wdPath cmdArgs : String) : List String :=
  ["SHIM_PATH", "SHIM_TYPE", "WD_TYPE"]
  ++ (if wdt = "PATH" && wdPath ≠ "" then ["WD_PATH"] else [])
  ++ (if cmdArgs ≠ "" then ["SHIM_ARGS"] else [])

/-- The write sequence with each slot's `AddResourceData` result.  The
source performs the writes as independent sequential statements and ignores
their boolean results (a failure is only logged, resource_functions.h:91-92),
so every slot of `genWriteSlots` is attempted whatever the earlier results
were. -/
def genWrites (ok : String → Bool) (wdt wdPath cmdArgs : String) :
    List (String × Bool) :=
  (genWriteSlots wdt wdPath cmdArgs).map fun n => (n, ok n)

/-- The validation and build phase of `wmain`
(shim_executable.cpp:437-580), after path resolution: source existence /
regular-file / executable checks; directory-output adjustment; output parent
check; overwrite checks; subsystem inference; working-directory policy
validation; `UnpackShim`; resource writes.  Every failure returns the
untouched `exitcode` 1, and so does the success path. -/
def genBase (warns : List String) (inp outp : FsPath) : GenOutcome :=
  { genFail with
    inPath := some inp
    outPathRes := some outp
    warnings := warns }

/-- The directory-name adjustment (shim_executable.cpp:475-479): when the
output resolves to an existing directory, append the source's filename. -/
def genOutp2 (env : GenEnv) (inp outp : FsPath) : FsPath :=
  if env.isDir outp then fsJoin outp ⟨false, [inp.filename]⟩ else outp

/-- Effective subsystem (shim_executable.cpp:514-521): the explicit flag if
given, else inferred from the high word of the executable-type probe. -/
def genShimType (env : GenEnv) (st : String) (inp : FsPath) : String :=
  if st = "" then
    (if env.execType inp / 65536 % 65536 ≠ 0 then "GUI" else "CONSOLE")
  else st

/-- Effective working-directory type (shim_executable.cpp:528-530):
explicit flag if given, else `CMD` for CONSOLE shims and `APP` for GUI
shims; uppercased. -/
def genWdType (args : GenArgs) (st2 : String) : String :=
  upperStr (if args.wdType = "" then
    (if st2 = "CONSOLE" then "CMD" else "APP") else args.wdType)

def genWarns2 (env : GenEnv) (warns : List String) (outp : FsPath) : List String :=
  warns ++ (if env.isDir outp then ["OUTPUT_NAME_FROM_SOURCE"] else [])

def genWarns3 (env : GenEnv) (warns : List String) (outp2 : FsPath) : List String :=
  warns ++ (if env.fsExists outp2 then ["OUTPUT_OVERWRITE"] else [])

def genWarns4 (args : GenArgs) (warns : List String) (wdt : String) : List String :=
  warns ++ (if wdt = "PATH" && args.wdPath = "" then ["WD_PATH_EMPTY"] else [])
        ++ (if args.icon ≠ "" then ["ICON_IGNORED"] else [])

def genCheck (env : GenEnv) (args : GenArgs) (st : String) (warns : List String)
    (inp outp : FsPath) : GenOutcome :=
  if !env.fsExists inp then genBase warns inp outp
  else if !env.isRegular inp then genBase warns inp outp
  else if env.execType inp = 0 then genBase warns inp outp
  else
    let outp2 := genOutp2 env inp outp
    let base2 := { genBase (genWarns2 env warns outp) inp outp with
                   outPath := some outp2 }
    if !env.isDir outp2.parent then base2
    else if env.fsExists outp2 && env.equivalent outp2 inp then base2
    else if env.fsExists outp2 && !env.isRegular outp2 then base2
    else
      let st2 := genShimType env st inp
      let wdt := genWdType args st2
      let base3 := { base2 with
                     warnings := genWarns3 env (genWarns2 env warns outp) outp2
                     shimType := st2 }
      if wdt ≠ "CMD" && wdt ≠ "APP" && wdt ≠ "SHIM" && wdt ≠ "PATH" then base3
      else
        let base4 := { base3 with
                       warnings := genWarns4 args
                         (genWarns3 env (genWarns2 env warns outp) outp2) wdt
                       wdTypeRes := wdt }
        if !env.unpackOk then base4
        else
          { base4 with
            created := true
            writes := genWrites env.writeOk wdt args.wdPath args.commandArgs }

/-- `wmain` of the generator (shim_executable.cpp:235-580) as a pure
function.  Control flow follows the source: `ShowHelp` with `exit(0)`
(line 228); `--gui` sets the subsystem (line 291); in non-legacy mode
`--console` either sets it or, when GUI was already chosen, only logs the
conflict warning (lines 308-321); empty input fails (line 378); path
expansion (`genResolve`); then `genCheck`.  The source never assigns 0 to
`exitcode`, so even the fully successful path returns 1. -/
def genMain (env : GenEnv) (args : GenArgs) : GenOutcome :=
  if args.help then { genFail with exitCode := 0, helpShown := true }
  else
    let st0 := if args.guiFlag then "GUI" else ""
    let st1 := if !env.isShimgen && args.consoleFlag && st0 = "" then "CONSOLE"
      else st0
    let warns0 := if !env.isShimgen && args.consoleFlag && st0 ≠ "" then
        ["CONSOLE_GUI_CONFLICT"] else []
    match args.input with
    | none => { genFail with warnings := warns0 }
    | some _ =>
      let warns1 := warns0 ++ (if !env.isShimgen && args.output = none then
          ["OUTPUT_DEFAULT_CURRENT"] else [])
      match genResolve env args with
      | none => { genFail with warnings := warns1 }
      | some (inp, outp) => genCheck env args st1 warns1 inp outp

theorem genCheck_exitCode (env : GenEnv) (args : GenArgs) (st : String)
    (warns : List String) (inp outp : FsPath) :
    (genCheck env args st warns inp outp).exitCode = 1 := by
  simp only [genCheck]
  repeat' split
  all_goals rfl

theorem genCheck_paths (env : GenEnv) (args : GenArgs) (st : String)
    (warns : List String) (inp outp : FsPath) :
    (genCheck env args st warns inp outp).inPath = some inp
    ∧ (genCheck env args st warns inp outp).outPathRes = some outp := by
  simp only [genCheck]
  repeat' split
  all_goals exact ⟨rfl, rfl⟩

/-- A concrete fully-valid generator invocation: non-legacy, absolute source
path `C:\APP\app.exe` that exists, is regular and is a console executable;
no output argument, so the shim goes to the current directory; unpack and
all writes succeed. -/
def genEnvOk : GenEnv :=
  { execDir := ⟨true, ["C:", "TOOLS"]⟩
    currDir := ⟨true, ["C:", "CUR"]⟩
    isShimgen := false
    fsExists := fun p => p == ⟨true, ["C:", "APP", "app.exe"]⟩
    isRegular := fun p => p == ⟨true, ["C:", "APP", "app.exe"]⟩
    isDir := fun p => p == ⟨true, ["C:", "CUR"]⟩
    execType := fun _ => 1
    equivalent := fun a b => a == b
    unpackOk := true
    writeOk := fun _ => true }

def genArgsOk : GenArgs :=
  { help := false
    input := some ⟨true, ["C:", "APP", "app.exe"]⟩
    output := none
    commandArgs := ""
    icon := ""
    guiFlag := false
    consoleFlag := false
    wdType := ""
    wdPath := ""
    debug := false }

/-- Claim C1 is contradicted by the code: `exitcode` is initialized to 1
(shim_executable.cpp:236) and never assigned again, so `wmain` returns 1
even on the fully successful path that logs "has successfully created"
(shim_executable.cpp:578-579).  Concretely, the valid invocation `genEnvOk`/
`genArgsOk` creates the shim yet exits 1; and universally, every invocation
either shows help (the `exit(0)` inside `ShowHelp`) or exits 1. -/
theorem genMain_success_exits_one :
    (genMain genEnvOk genArgsOk).created = true
    ∧ (genMain genEnvOk genArgsOk).exitCode = 1
    ∧ ∀ (env : GenEnv) (args : GenArgs),
        (genMain env args).helpShown = true ∨ (genMain env args).exitCode = 1 := by
  refine ⟨by decide, by decide, ?_⟩
  intro env args
  by_cases h : args.help
  · left
    simp [genMain, h, genFail]
  · right
    simp only [genMain, if_neg h]
    cases hin : args.input with
    | none => rfl
    | some i =>
      cases hres : genResolve env args with
      | none => simp [hres, genFail]
      | some pr => simp [hres, genCheck_exitCode]

/-- Claim C7: legacy (`SHIMGEN`) mode fails on an empty output path,
expands a relative output from the generator binary's directory and a
relative target from the resolved output's directory; non-legacy mode
expands a relative target from the current working directory, defaults an
empty output to the current directory, and expands a relative output from
the current working directory; and the resolved pair is what `wmain`
carries into validation. -/
theorem genMain_path_resolution :
    (∀ (env : GenEnv) (args : GenArgs), env.isShimgen = true →
        args.help = false → args.output = none →
        (genMain env args).exitCode = 1 ∧ (genMain env args).created = false)
    ∧ (∀ (env : GenEnv) (args : GenArgs) (i o : FsPath), env.isShimgen = true →
        args.input = some i → args.output = some o → o.absolute = false →
        (genResolve env args).map (fun pr => pr.2)
          = some (wcanon (fsJoin env.execDir o)))
    ∧ (∀ (env : GenEnv) (args : GenArgs) (i o op : FsPath),
        env.isShimgen = true → args.input = some i → args.output = some o →
        i.absolute = false →
        (genResolve env args).map (fun pr => pr.2) = some op →
        (genResolve env args).map (fun pr => pr.1)
          = some (wcanon (fsJoin op.parent i)))
    ∧ (∀ (env : GenEnv) (args : GenArgs) (i : FsPath), env.isShimgen = false →
        args.input = some i → i.absolute = false →
        (genResolve env args).map (fun pr => pr.1)
          = some (wcanon (fsJoin env.currDir i)))
    ∧ (∀ (env : GenEnv) (args : GenArgs) (i : FsPath), env.isShimgen = false →
        args.input = some i → args.output = none → env.currDir.absolute = true →
        (genResolve env args).map (fun pr => pr.2) = some env.currDir)
    ∧ (∀ (env : GenEnv) (args : GenArgs) (i o : FsPath), env.isShimgen = false →
        args.input = some i → args.output = some o → o.absolute = false →
        (genResolve env args).map (fun pr => pr.2)
          = some (wcanon (fsJoin env.currDir o)))
    ∧ (∀ (env : GenEnv) (args : GenArgs) (inp outp : FsPath),
        args.help = false → genResolve env args = some (inp, outp) →
        (genMain env args).inPath = some inp
        ∧ (genMain env args).outPathRes = some outp) := by
  refine ⟨?_, ?_, ?_, ?_, ?_, ?_, ?_⟩
  · intro env args hs hh ho
    cases hi : args.input with
    | none => exact ⟨by simp [genMain, hh, hi, genFail], by simp [genMain, hh, hi, genFail]⟩
    | some i =>
      constructor <;> simp [genMain, hh, hi, genResolve, hs, ho, genFail]
  · intro env args i o hs hi ho horel
    simp [genResolve, hs, hi, ho, horel]
  · intro env args i o op hs hi ho hirel hop
    simp [genResolve, hs, hi, ho] at hop
    simp [genResolve, hs, hi, ho, hirel, hop]
  · intro env args i hs hi hirel
    simp [genResolve, hs, hi, hirel]
  · intro env args i hs hi ho habs
    simp [genResolve, hs, hi, ho, habs]
  · intro env args i o hs hi ho horel
    simp [genResolve, hs, hi, ho, horel]
  · intro env args inp outp hh hres
    cases hi : args.input with
    | none => simp [genResolve, hi] at hres
    | some i =>
      have h1 : genMain env args = genCheck env args
          (if !env.isShimgen && args.consoleFlag
              && (if args.guiFlag then "GUI" else "") = "" then "CONSOLE"
            else (if args.guiFlag then "GUI" else ""))
          ((if !env.isShimgen && args.consoleFlag
              && (if args.guiFlag then "GUI" else "") ≠ "" then
              ["CONSOLE_GUI_CONFLICT"] else [])
            ++ (if !env.isShimgen && args.output = none then
              ["OUTPUT_DEFAULT_CURRENT"] else [])) inp outp := by
        simp [genMain, hh, hi, hres]
      rw [h1]
      exact genCheck_paths env args _ _ inp outp

/-- The generator binary renamed `SHIMGEN`, otherwise like `genEnvOk`. -/
def genEnvLeg : GenEnv := { genEnvOk with isShimgen := true }

/-- Legacy invocation with relative target and output paths. -/
def genArgsLegRel : GenArgs :=
  { genArgsOk with
    input := some ⟨false, ["..", "APP", "app.exe"]⟩
    output := some ⟨false, ["SHIM", "app.exe"]⟩ }

/-- Witness for C7: legacy mode with empty output fails with exit 1; with a
relative output `SHIM\app.exe` it resolves from the `SHIMGEN` directory
`C:\TOOLS`, and the relative target `..\APP\app.exe` resolves from that
output's directory. -/
theorem genMain_path_resolution_witness :
    (genMain genEnvLeg genArgsOk).exitCode = 1
    ∧ (genResolve genEnvLeg genArgsLegRel).map (fun pr => pr.2)
        = some ⟨true, ["C:", "TOOLS", "SHIM", "app.exe"]⟩
    ∧ (genResolve genEnvLeg genArgsLegRel).map (fun pr => pr.1)
        = some ⟨true, ["C:", "TOOLS", "APP", "app.exe"]⟩ := by
  refine ⟨?_, ?_, ?_⟩
  · exact (genMain_path_resolution.1 genEnvLeg genArgsOk (by decide) (by decide)
      (by decide)).1
  · exact (genMain_path_resolution.2.1 genEnvLeg genArgsLegRel
      ⟨false, ["..", "APP", "app.exe"]⟩ ⟨false, ["SHIM", "app.exe"]⟩
      (by decide) (by decide) (by decide) (by decide)).trans (by decide)
  · exact (genMain_path_resolution.2.2.1 genEnvLeg genArgsLegRel
      ⟨false, ["..", "APP", "app.exe"]⟩ ⟨false, ["SHIM", "app.exe"]⟩
      ⟨true, ["C:", "TOOLS", "SHIM", "app.exe"]⟩
      (by decide) (by decide) (by decide) (by decide) (by decide)).trans (by decide)

theorem genCheck_warns_mem (env : GenEnv) (args : GenArgs) (st : String)
    (warns : List String) (inp outp : FsPath) (w : String) (hw : w ∈ warns) :
    w ∈ (genCheck env args st warns inp outp).warnings := by
  simp only [genCheck]
  repeat' split
  all_goals simp [genBase, genFail, genWarns2, genWarns3, genWarns4, hw]

theorem genCheck_created_shimType (env : GenEnv) (args : GenArgs) (st : String)
    (warns : List String) (inp outp : FsPath) :
    (genCheck env args st warns inp outp).created = true →
    (genCheck env args st warns inp outp).shimType = genShimType env st inp := by
  simp only [genCheck]
  repeat' split
  all_goals intro hc
  all_goals first
  | rfl
  | exact absurd hc (by simp [genBase, genFail])

/-- Both subsystem flags passed together, in an otherwise valid non-legacy
invocation. -/
def genArgsC8 : GenArgs :=
  { genArgsOk with
    guiFlag := true
    consoleFlag := true }

/-- Claim C8: a non-legacy invocation passing both `--console` and `--gui`
logs the conflict warning, GUI wins as the effective subsystem whenever the
shim is created, and generation proceeds — demonstrated by the concrete
invocation `genArgsC8`, which creates the shim with subsystem GUI and the
warning logged.  The flags are extracted by pattern, not position, so the
booleans cover both orders. -/
theorem genMain_console_gui_warning :
    (∀ (env : GenEnv) (args : GenArgs), env.isShimgen = false →
        args.help = false → args.guiFlag = true → args.consoleFlag = true →
        "CONSOLE_GUI_CONFLICT" ∈ (genMain env args).warnings
        ∧ ((genMain env args).created = true →
            (genMain env args).shimType = "GUI"))
    ∧ ((genMain genEnvOk genArgsC8).created = true
        ∧ (genMain genEnvOk genArgsC8).shimType = "GUI"
        ∧ "CONSOLE_GUI_CONFLICT" ∈ (genMain genEnvOk genArgsC8).warnings) := by
  refine ⟨?_, by decide, by decide, by decide⟩
  intro env args hs hh hg hc
  cases hi : args.input with
  | none =>
    constructor
    · simp [genMain, hh, hi, hs, hg, hc, genFail]
    · intro hcr
      exact absurd hcr (by simp [genMain, hh, hi, hs, hg, hc, genFail])
  | some i =>
    cases hres : genResolve env args with
    | none =>
      constructor
      · simp [genMain, hh, hi, hres, hs, hg, hc, genFail]
      · intro hcr
        exact absurd hcr (by simp [genMain, hh, hi, hres, hs, hg, hc, genFail])
    | some pr =>
      have h1 : genMain env args = genCheck env args ("GUI")
          (["CONSOLE_GUI_CONFLICT"]
            ++ (if args.output = none then ["OUTPUT_DEFAULT_CURRENT"] else []))
          pr.1 pr.2 := by
        simp [genMain, hh, hi, hres, hs, hg, hc]
      rw [h1]
      constructor
      · exact genCheck_warns_mem env args _ _ pr.1 pr.2 _ (by simp)
      · intro hcr
        rw [genCheck_created_shimType env args _ _ pr.1 pr.2 hcr]
        simp [genShimType]

/-- Witness for C8 at the concrete invocation `genEnvOk` with both subsystem
flags. -/
theorem genMain_console_gui_warning_witness :
    "CONSOLE_GUI_CONFLICT" ∈ (genMain genEnvOk genArgsC8).warnings
    ∧ (genMain genEnvOk genArgsC8).shimType = "GUI" := by
  have h := genMain_console_gui_warning.1 genEnvOk genArgsC8 (by decide)
    (by decide) (by decide) (by decide)
  exact ⟨h.1, h.2 (by decide)⟩

theorem genCheck_writes_fst_writeOk (env : GenEnv) (ok : String → Bool)
    (args : GenArgs) (st : String) (warns : List String) (inp outp : FsPath) :
    (genCheck { env with writeOk := ok } args st warns inp outp).writes.map Prod.fst
      = (genCheck env args st warns inp outp).writes.map Prod.fst := by
  have e1 : ∀ i o, genOutp2 { env with writeOk := ok } i o = genOutp2 env i o :=
    fun i o => rfl
  have e2 : ∀ s i, genShimType { env with writeOk := ok } s i = genShimType env s i :=
    fun s i => rfl
  have e3 : ∀ w o, genWarns2 { env with writeOk := ok } w o = genWarns2 env w o :=
    fun w o => rfl
  have e4 : ∀ w o, genWarns3 { env with writeOk := ok } w o = genWarns3 env w o :=
    fun w o => rfl
  simp only [genCheck, e1, e2, e3, e4]
  repeat' split
  all_goals simp [genWrites, genBase, genFail, List.map_map, Function.comp]

theorem genCheck_created_writes_slots (env : GenEnv) (args : GenArgs)
    (st : String) (warns : List String) (inp outp : FsPath) :
    (genCheck env args st warns inp outp).created = true →
    (genCheck env args st warns inp outp).writes.map Prod.fst
      = genWriteSlots (genCheck env args st warns inp outp).wdTypeRes
          args.wdPath args.commandArgs := by
  simp only [genCheck]
  repeat' split
  all_goals intro hc
  all_goals first
  | (have h : (Prod.fst ∘ fun n : String => (n, env.writeOk n)) = id := rfl
     simp [genWrites, List.map_map, h]
     done)
  | exact absurd hc (by simp [genBase, genFail])

theorem genMain_eq_genCheck (env : GenEnv) (args : GenArgs)
    (hh : args.help = false) (inp outp : FsPath)
    (hres : genResolve env args = some (inp, outp)) :
    ∃ st warns, genMain env args = genCheck env args st warns inp outp := by
  cases hi : args.input with
  | none => simp [genResolve, hi] at hres
  | some i =>
    exact ⟨(if !env.isShimgen && args.consoleFlag
        && (if args.guiFlag then "GUI" else "") = "" then "CONSOLE"
      else (if args.guiFlag then "GUI" else "")),
      ((if !env.isShimgen && args.consoleFlag
          && (if args.guiFlag then "GUI" else "") ≠ "" then
          ["CONSOLE_GUI_CONFLICT"] else [])
        ++ (if !env.isShimgen && args.output = none then
          ["OUTPUT_DEFAULT_CURRENT"] else [])),
      by simp [genMain, hh, hi, hres]⟩

/-- Claim C9: the resource writes are independent sequential updates.  The
attempted-slot sequence of `genWrites` is exactly `genWriteSlots`, whatever
the per-slot success function says — so a failed earlier write never
suppresses a later attempt; replacing the success function never changes
which slots `wmain` attempts; and whenever the shim was created the
attempted sequence is `SHIM_PATH`, `SHIM_TYPE`, `WD_TYPE`, plus `WD_PATH`
and `SHIM_ARGS` under their conditions (`genWriteSlots`). -/
theorem genWrites_attempted_slots :
    (∀ (ok : String → Bool) (wdt wdp cmd : String),
        (genWrites ok wdt wdp cmd).map Prod.fst = genWriteSlots wdt wdp cmd)
    ∧ (∀ (env : GenEnv) (args : GenArgs),
        (genMain env args).created = true →
        (genMain env args).writes.map Prod.fst
          = genWriteSlots (genMain env args).wdTypeRes
              args.wdPath args.commandArgs)
    ∧ (∀ (env : GenEnv) (args : GenArgs) (ok : String → Bool),
        (genMain { env with writeOk := ok } args).writes.map Prod.fst
          = (genMain env args).writes.map Prod.fst) := by
  refine ⟨?_, ?_, ?_⟩
  · intro ok wdt wdp cmd
    have h : (Prod.fst ∘ fun n : String => (n, ok n)) = id := rfl
    simp [genWrites, List.map_map, h]
  · intro env args hc
    by_cases hh : args.help
    · have h0 : (genMain env args).created = false := by simp [genMain, hh, genFail]
      exact absurd (h0.symm.trans hc) (by decide)
    · cases hi : args.input with
      | none =>
        have h0 : (genMain env args).created = false := by
          simp [genMain, hh, hi, genFail]
        exact absurd (h0.symm.trans hc) (by decide)
      | some i =>
        cases hres : genResolve env args with
        | none =>
          have h0 : (genMain env args).created = false := by
            simp [genMain, hh, hi, hres, genFail]
          exact absurd (h0.symm.trans hc) (by decide)
        | some pr =>
          obtain ⟨inp2, outp2⟩ := pr
          obtain ⟨st, warns, h1⟩ := genMain_eq_genCheck env args
            (by simp [hh]) inp2 outp2 hres
          rw [h1] at hc ⊢
          exact genCheck_created_writes_slots env args st warns inp2 outp2 hc
  · intro env args ok
    by_cases hh : args.help
    · simp [genMain, hh]
    · cases hi : args.input with
      | none => simp [genMain, hh, hi]
      | some i =>
        have er : genResolve { env with writeOk := ok } args = genResolve env args :=
          rfl
        cases hres : genResolve env args with
        | none => simp [genMain, hh, hi, er, hres]
        | some pr =>
          obtain ⟨inp2, outp2⟩ := pr
          simp only [genMain, hh, hi, er, hres, Bool.false_eq_true, if_false]
          exact genCheck_writes_fst_writeOk env ok args _ _ inp2 outp2

end ShimExec
